import Mathlib

/-!
Verification development for the transaction/recovery core of the
`augment-vips` repository (`scripts/common/transaction_manager.py`).

The Python module is shallowly embedded below:

* `TransactionOperation` and the serialized journal record (`LogData`)
  mirror the data classes;
* the file system visible to the rollback code is an association list
  from paths to file contents (`FS`);
* the journal directory is an association list from file names to file
  contents; for the lifecycle functions a journal file is either a
  record that parses (`JEntry.parsed`) or malformed data (`JEntry.bad`);
* manager methods that `raise RuntimeError` are embedded in
  `Except String`; the exception text is the Python message;
* `commit_transaction` wraps its body in `try/except Exception`, so the
  possible I/O failures of its two fallible steps (the journal save and
  the journal-file deletion) are injected through a `CommitFault`
  parameter.  A failing save is modelled as leaving the journal
  unchanged (the `open` itself fails); a failing deletion happens after
  a successful save.
* the wall-clock reads (`datetime.utcnow()` inside
  `_save_transaction_log`, the generated transaction id inside
  `begin_transaction`) are passed in as explicit parameters.

Rollback-style functions additionally return the list of
`_rollback_operation` calls they made, paired with each call's boolean
result — a ghost trace used to state ordering and best-effort
properties; the Python code performs exactly those calls in that order.
-/

namespace TxnModel

/-- Python truthiness of an `Optional[str]`: `None` and `""` are falsy. -/
def pyTruthy : Option String → Bool
  | none => false
  | some s => s ≠ ""

/-- `TransactionOperation` (transaction_manager.py, lines 15-58).
`metadata` is an opaque key/value dictionary, embedded as an
association list. -/
structure TransactionOperation where
  operation_type : String
  target_path : String
  backup_path : Option String := none
  metadata : List (String × String) := []
  timestamp : String := ""
  completed : Bool := false
deriving Repr, DecidableEq

/-- The assignment `operation.completed = True` performed by
`commit_transaction` on each operation. -/
def markCompleted (op : TransactionOperation) : TransactionOperation :=
  { op with completed := true }

/-- The serialized journal record built by `_save_transaction_log`
(lines 208-212): transaction id, `start_time`, and the operation list. -/
structure LogData where
  transaction_id : String
  start_time : String
  operations : List TransactionOperation
deriving Repr, DecidableEq

/-- The file system seen by the restore code: a finite map from paths
to file contents, as an association list. -/
abbrev FS := List (String × String)

/-- Read a file's contents (`none` when the path does not exist). -/
def fsRead (fs : FS) (p : String) : Option String :=
  (fs.find? (fun e => e.1 = p)).map (fun e => e.2)

/-- `Path(p).exists()`. -/
def fsExists (fs : FS) (p : String) : Bool :=
  (fsRead fs p).isSome

/-- Write (create or overwrite) a file. -/
def fsWrite (fs : FS) (p c : String) : FS :=
  (p, c) :: fs.filter (fun e => decide (e.1 ≠ p))

/-- A journal file's contents, as seen by `json.load` +
`TransactionOperation.from_dict`: either a record that parses, or
malformed data (any file on which the `try` body of the recovery loop
raises). -/
inductive JEntry where
  | parsed (d : LogData)
  | bad
deriving Repr, DecidableEq

instance : Inhabited JEntry := ⟨JEntry.bad⟩

/-- The journal directory: file name ↦ contents. -/
abbrev JournalDir := List (String × JEntry)

/-- Read a journal file. -/
def jdRead (jd : JournalDir) (name : String) : Option JEntry :=
  (jd.find? (fun e => e.1 = name)).map (fun e => e.2)

/-- Create or overwrite a journal file. -/
def jdWrite (jd : JournalDir) (name : String) (v : JEntry) : JournalDir :=
  (name, v) :: jd.filter (fun e => decide (e.1 ≠ name))

/-- `log_file.unlink()` guarded by `log_file.exists()`: remove the file
if present (idempotent). -/
def jdDelete (jd : JournalDir) (name : String) : JournalDir :=
  jd.filter (fun e => decide (e.1 ≠ name))

/-- The in-memory state of a `TransactionManager` (lines 61-74): the id
of the active transaction, if any, and the registered operations. -/
structure TransactionManager where
  current_transaction_id : Option String
  operations : List TransactionOperation
deriving Repr, DecidableEq

/-- A freshly constructed manager: no active transaction. -/
def TransactionManager.idle : TransactionManager := ⟨none, []⟩

/-- `_get_transaction_log_path` (lines 218-220): `<id>.json` in the
journal directory. -/
def logFileName (tid : String) : String := tid ++ ".json"

/-- `_save_transaction_log` (lines 203-216): a no-op when no transaction
is active; otherwise serializes the current state and overwrites
`<id>.json`.  `now` is the value of `datetime.utcnow().isoformat()` at
this call — the code stores it in the record's `start_time` field. -/
def save_transaction_log (now : String) (tm : TransactionManager)
    (jd : JournalDir) : JournalDir :=
  match tm.current_transaction_id with
  | none => jd
  | some tid =>
      jdWrite jd (logFileName tid) (JEntry.parsed ⟨tid, now, tm.operations⟩)

/-- `begin_transaction` (lines 76-99).  `genId` is the
`tx_<timestamp>` id generated when the caller passes no (or a falsy)
id; `now` is the clock value seen by the journal save. -/
def begin_transaction (now : String) (tidOpt : Option String)
    (genId : String) (tm : TransactionManager) (jd : JournalDir) :
    Except String (String × TransactionManager × JournalDir) :=
  match tm.current_transaction_id with
  | some _ => .error "Transaction already in progress"
  | none =>
      let tid := if pyTruthy tidOpt then tidOpt.getD genId else genId
      let tm' : TransactionManager := ⟨some tid, []⟩
      .ok (tid, tm', save_transaction_log now tm' jd)

/-- `add_operation` (lines 101-112): state-conflict error when idle;
otherwise append the operation and persist. -/
def add_operation (now : String) (op : TransactionOperation)
    (tm : TransactionManager) (jd : JournalDir) :
    Except String (TransactionManager × JournalDir) :=
  match tm.current_transaction_id with
  | none => .error "No transaction in progress"
  | some tid =>
      let tm' : TransactionManager := ⟨some tid, tm.operations ++ [op]⟩
      .ok (tm', save_transaction_log now tm' jd)

/-- Failure injection for the two fallible I/O steps inside
`commit_transaction`'s `try` block: the journal save
(`_save_transaction_log`) and the journal-file deletion
(`log_file.unlink()`). -/
inductive CommitFault where
  | ok
  | saveFails
  | deleteFails
deriving Repr, DecidableEq

/-- `commit_transaction` (lines 114-141).  The body first marks every
operation completed, then saves the journal, then deletes the journal
file, then clears the in-memory state and returns `True`; any exception
from the save or the deletion is swallowed by `except Exception:` and
the method returns `False` — the statements after the raise point
(including the clearing of `current_transaction_id` and `operations`)
are skipped. -/
def commit_transaction (now : String) (fault : CommitFault)
    (tm : TransactionManager) (jd : JournalDir) :
    Except String (TransactionManager × JournalDir × Bool) :=
  match tm.current_transaction_id with
  | none => .error "No transaction in progress"
  | some tid =>
      let tm1 : TransactionManager :=
        ⟨some tid, tm.operations.map markCompleted⟩
      match fault with
      | .saveFails => .ok (tm1, jd, false)
      | .deleteFails => .ok (tm1, save_transaction_log now tm1 jd, false)
      | .ok =>
          let jd1 := save_transaction_log now tm1 jd
          let jd2 := jdDelete jd1 (logFileName tid)
          .ok (TransactionManager.idle, jd2, true)

/-- `_rollback_operation` (lines 170-201): three `elif` branches, one
per known operation type, each guarded by a truthy `backup_path`; a
branch restores only when the backup exists on disk
(`shutil.copy2(backup, target)`); every other path through the method
returns `False` and leaves the file system untouched. -/
def rollback_operation (fs : FS) (op : TransactionOperation) :
    FS × Bool :=
  if op.operation_type = "file_modify" ∧ pyTruthy op.backup_path then
    match op.backup_path with
    | some bp =>
        match fsRead fs bp with
        | some c => (fsWrite fs op.target_path c, true)
        | none => (fs, false)
    | none => (fs, false)
  else if op.operation_type = "file_delete" ∧ pyTruthy op.backup_path then
    match op.backup_path with
    | some bp =>
        match fsRead fs bp with
        | some c => (fsWrite fs op.target_path c, true)
        | none => (fs, false)
    | none => (fs, false)
  else if op.operation_type = "db_modify" ∧ pyTruthy op.backup_path then
    match op.backup_path with
    | some bp =>
        match fsRead fs bp with
        | some c => (fsWrite fs op.target_path c, true)
        | none => (fs, false)
    | none => (fs, false)
  else (fs, false)

/-- A loop of `_rollback_operation` calls over `ops` in list order,
threading the file system.  Returns the final file system, the ghost
trace of calls made (each with its boolean result), and the conjunction
of all results (the `success` accumulator of `rollback_transaction`,
which starts `True` and is set to `False` by any failed call). -/
def rollbackMany (fs : FS) :
    List TransactionOperation →
    FS × List (TransactionOperation × Bool) × Bool
  | [] => (fs, [], true)
  | op :: rest =>
      let s := rollback_operation fs op
      let r := rollbackMany s.1 rest
      (r.1, (op, s.2) :: r.2.1, s.2 && r.2.2)

/-- `rollback_transaction` (lines 143-168): state-conflict error when
idle; otherwise restore the registered operations in reverse insertion
order (`for operation in reversed(self.operations)`), delete the
journal file, unconditionally clear the in-memory state, and return the
accumulated success flag.  The second component of the result is the
ghost trace of `_rollback_operation` calls. -/
def rollback_transaction (tm : TransactionManager) (fs : FS)
    (jd : JournalDir) :
    Except String
      (TransactionManager × FS × JournalDir ×
        List (TransactionOperation × Bool) × Bool) :=
  match tm.current_transaction_id with
  | none => .error "No transaction in progress"
  | some tid =>
      let r := rollbackMany fs tm.operations.reverse
      .ok (TransactionManager.idle, r.1, jdDelete jd (logFileName tid),
        r.2.1, r.2.2)

/-- The body of the recovery loop for one successfully parsed record
(lines 236-248): partition off the operations with `completed == False`;
if any exist, roll them back in reverse order (ignoring each call's
result) and mark the transaction as recovered.  Returns the updated
file system, the ghost trace of `_rollback_operation` calls, and
whether the id was appended to `recovered`. -/
def recoverRecord (fs : FS) (d : LogData) :
    FS × List (TransactionOperation × Bool) × Bool :=
  let incomplete := d.operations.filter (fun op => !op.completed)
  if incomplete.isEmpty then (fs, [], false)
  else
    let r := rollbackMany fs incomplete.reverse
    (r.1, r.2.1, true)

/-- `recover_incomplete_transactions` (lines 222-257): iterate over the
journal files; a file that fails to parse is skipped by the
`except Exception: continue` handler and stays on disk; a file that
parses has its incomplete operations rolled back (if any, in which case
its id is appended to the result) and is then deleted.  Returns the
final file system, the journal directory after the sweep, and the
recovered ids in iteration order. -/
def recover_incomplete_transactions (fs : FS) :
    JournalDir → FS × JournalDir × List String
  | [] => (fs, [], [])
  | (name, JEntry.bad) :: rest =>
      let r := recover_incomplete_transactions fs rest
      (r.1, (name, JEntry.bad) :: r.2.1, r.2.2)
  | (_name, JEntry.parsed d) :: rest =>
      let m := recoverRecord fs d
      let r := recover_incomplete_transactions m.1 rest
      (r.1, r.2.1, if m.2.2 then d.transaction_id :: r.2.2 else r.2.2)

/-! ### Byte-level view of the journal write (for atomicity questions)

`_save_transaction_log` persists with `open(log_file, "w")` followed by
`json.dump(...)`: the `open` truncates the journal file in place, and
the serialized record is then written into the truncated file.  To talk
about what a concurrent reader of the directory can observe, the
directory is modelled here at the byte level (file name ↦ raw
contents), and the save is modelled as the sequence of directory states
the reader can see: before the call, after the truncating `open`, and
after the contents are written.  No temporary path appears at any
point. -/

/-- A directory at the byte level: file name ↦ raw contents. -/
abbrev RawDir := List (String × String)

/-- Read a raw file (`none` when absent). -/
def rawRead (d : RawDir) (p : String) : Option String :=
  (d.find? (fun e => e.1 = p)).map (fun e => e.2)

/-- Create or overwrite a raw file. -/
def rawWrite (d : RawDir) (p c : String) : RawDir :=
  (p, c) :: d.filter (fun e => decide (e.1 ≠ p))

/-- The directory states observable during the source's
`_save_transaction_log` body (lines 214-216), in order: the state
before the call, the state after `open(log_file, "w")` has truncated
the journal file, and the state after `json.dump` has written the
serialized record `ser`.  The write goes straight to the final path
`path`; there is no temporary file and no rename step. -/
def save_write_states (d : RawDir) (path ser : String) : List RawDir :=
  [d, rawWrite d path "", rawWrite d path ser]

/-! ### The `with_transaction` decorator -/

/-- The complete mutable state touched by the decorator: the (global)
manager, the protected files, and the journal directory. -/
structure World where
  tm : TransactionManager
  fs : FS
  jd : JournalDir
deriving Repr, DecidableEq

/-- The caller-supplied work wrapped by the decorator: it runs against
the world (it may mutate files and register operations) and always
yields the world as mutated up to its return or its raise point,
together with either its result or the exception it raised. -/
abbrev Work (E α : Type) := World → World × Except E α

/-- `with_transaction` (lines 277-299): begin a transaction (an error
here propagates — the `try` has not started yet), run the wrapped
function; on normal return, call `commit_transaction` (its boolean
result is discarded) and return the function's result; on an exception
`e`, call `rollback_transaction` (its boolean result is discarded) and
re-raise `e`.  If the commit or the rollback itself raises (only
possible as a state-conflict `RuntimeError`), Python's `except` block
lets that exception replace the original one; this is mirrored by the
`.error (.inl s)` branches.  `genId` is the generated transaction id
(the decorator passes no explicit id), `fault` drives the fallible I/O
inside the commit. -/
def with_transaction {E α : Type} (now genId : String) (fault : CommitFault)
    (work : Work E α) (w : World) :
    World × Except (String ⊕ E) α :=
  match begin_transaction now none genId w.tm w.jd with
  | .error s => (w, .error (.inl s))
  | .ok (_tid, tm1, jd1) =>
      let wr := work ⟨tm1, w.fs, jd1⟩
      match wr.2 with
      | .ok a =>
          match commit_transaction now fault wr.1.tm wr.1.jd with
          | .ok (tm', jd', _b) => (⟨tm', wr.1.fs, jd'⟩, .ok a)
          | .error s =>
              match rollback_transaction wr.1.tm wr.1.fs wr.1.jd with
              | .ok (tm', fs', jd', _tr, _ok) =>
                  (⟨tm', fs', jd'⟩, .error (.inl s))
              | .error s' => (wr.1, .error (.inl s'))
      | .error e =>
          match rollback_transaction wr.1.tm wr.1.fs wr.1.jd with
          | .ok (tm', fs', jd', _tr, _ok) =>
              (⟨tm', fs', jd'⟩, .error (.inr e))
          | .error s' => (wr.1, .error (.inl s'))

/-! ### Concrete sample data for witnesses and counterexamples -/

/-- A modify operation with a backup. -/
def sampleOpA : TransactionOperation :=
  { operation_type := "file_modify", target_path := "a.txt",
    backup_path := some "a.bak" }

/-- A delete operation with a backup. -/
def sampleOpB : TransactionOperation :=
  { operation_type := "file_delete", target_path := "b.txt",
    backup_path := some "b.bak" }

/-- A modify operation registered without a backup. -/
def sampleOpNoBackup : TransactionOperation :=
  { operation_type := "file_modify", target_path := "c.txt" }

/-- An operation whose type is none of the three known kinds. -/
def sampleOpUnknown : TransactionOperation :=
  { operation_type := "file_rename", target_path := "a.txt",
    backup_path := some "a.bak" }

/-- A file system with mutated targets and intact backups. -/
def sampleFS : FS :=
  [("a.txt", "newA"), ("b.txt", "newB"), ("a.bak", "oldA"), ("b.bak", "oldB")]

/-- A manager with an active transaction and three registered operations. -/
def sampleTM : TransactionManager :=
  ⟨some "tx1", [sampleOpA, sampleOpB, sampleOpNoBackup]⟩

/-- Sample wrapped work for the decorator: returns `7`, mutates nothing. -/
def sampleWork : Work Unit Nat := fun w1 => (w1, Except.ok 7)

/-- Sample world for the decorator: idle manager, sample files, empty
journal directory. -/
def sampleWorld : World := ⟨TransactionManager.idle, sampleFS, []⟩

/-! ### Helper lemmas -/

theorem rollbackMany_trace_fst (fs : FS) (ops : List TransactionOperation) :
    ((rollbackMany fs ops).2.1).map Prod.fst = ops := by
  induction ops generalizing fs with
  | nil => rfl
  | cons op rest ih => simp [rollbackMany, ih]

theorem rollbackMany_ok_iff (fs : FS) (ops : List TransactionOperation) :
    (rollbackMany fs ops).2.2 = true ↔
      ∀ p ∈ (rollbackMany fs ops).2.1, p.2 = true := by
  induction ops generalizing fs with
  | nil => simp [rollbackMany]
  | cons op rest ih => simp [rollbackMany, Bool.and_eq_true, ih]

theorem find?_key_filter_ne {β : Type} (l : List (String × β)) (n m : String)
    (hmn : m ≠ n) :
    (l.filter (fun e => decide (e.1 ≠ n))).find? (fun e => decide (e.1 = m)) =
      l.find? (fun e => decide (e.1 = m)) := by
  induction l with
  | nil => rfl
  | cons e rest ih =>
      by_cases he : e.1 = n
      · have hm : ¬e.1 = m := fun hh => hmn (hh ▸ he)
        rw [List.filter_cons_of_neg (by simp [he]),
          List.find?_cons_of_neg _ (by simp [hm]), ih]
      · rw [List.filter_cons_of_pos (by simp [he])]
        by_cases hm : e.1 = m
        · rw [List.find?_cons_of_pos _ (by simp [hm]),
            List.find?_cons_of_pos _ (by simp [hm])]
        · rw [List.find?_cons_of_neg _ (by simp [hm]),
            List.find?_cons_of_neg _ (by simp [hm]), ih]

theorem find?_key_filter_self {β : Type} (l : List (String × β)) (n : String) :
    (l.filter (fun e => decide (e.1 ≠ n))).find? (fun e => decide (e.1 = n)) =
      none := by
  induction l with
  | nil => rfl
  | cons e rest ih =>
      by_cases he : e.1 = n
      · rw [List.filter_cons_of_neg (by simp [he]), ih]
      · rw [List.filter_cons_of_pos (by simp [he]),
          List.find?_cons_of_neg _ (by simp [he]), ih]

theorem jdRead_jdWrite_self (jd : JournalDir) (n : String) (v : JEntry) :
    jdRead (jdWrite jd n v) n = some v := by
  simp [jdRead, jdWrite]

theorem jdRead_jdWrite_ne (jd : JournalDir) (n m : String) (v : JEntry)
    (h : m ≠ n) : jdRead (jdWrite jd n v) m = jdRead jd m := by
  unfold jdRead jdWrite
  rw [List.find?_cons_of_neg _ (by simp; exact Ne.symm h),
    find?_key_filter_ne _ _ _ h]

theorem jdRead_jdDelete_self (jd : JournalDir) (n : String) :
    jdRead (jdDelete jd n) n = none := by
  unfold jdRead jdDelete
  rw [find?_key_filter_self]
  rfl

theorem jdRead_jdDelete_ne (jd : JournalDir) (n m : String) (h : m ≠ n) :
    jdRead (jdDelete jd n) m = jdRead jd m := by
  unfold jdRead jdDelete
  rw [find?_key_filter_ne _ _ _ h]

theorem rawRead_rawWrite_self (d : RawDir) (p c : String) :
    rawRead (rawWrite d p c) p = some c := by
  simp [rawRead, rawWrite]

theorem rollback_operation_fails_without_backup (fs0 : FS)
    (op : TransactionOperation)
    (h : pyTruthy op.backup_path = false ∨
      ∀ bp, op.backup_path = some bp → fsExists fs0 bp = false) :
    rollback_operation fs0 op = (fs0, false) := by
  unfold rollback_operation
  rcases h with h | h
  · simp [h]
  · cases hb : op.backup_path with
    | none => simp [pyTruthy]
    | some bp =>
        have hex := h bp hb
        have hread : fsRead fs0 bp = none := by
          unfold fsExists at hex
          exact Option.not_isSome_iff_eq_none.mp (by simp [hex])
        simp only [hb]
        split_ifs <;> simp [hread]

theorem recoverRecord_fs (fs : FS) (d : LogData) :
    (recoverRecord fs d).1 =
      (rollbackMany fs
        ((d.operations.filter (fun op => !op.completed)).reverse)).1 := by
  unfold recoverRecord
  by_cases hI : (d.operations.filter (fun op => !op.completed)).isEmpty
  · rw [List.isEmpty_iff] at hI
    simp [hI, rollbackMany]
  · simp [hI]

theorem recoverRecord_trace (fs : FS) (d : LogData) :
    ((recoverRecord fs d).2.1).map Prod.fst =
      (d.operations.filter (fun op => !op.completed)).reverse := by
  unfold recoverRecord
  by_cases hI : (d.operations.filter (fun op => !op.completed)).isEmpty
  · rw [List.isEmpty_iff] at hI
    simp [hI]
  · simp [hI, rollbackMany_trace_fst]

theorem recoverRecord_flag_iff (fs : FS) (d : LogData) :
    (recoverRecord fs d).2.2 = true ↔
      ∃ op ∈ d.operations, op.completed = false := by
  have key : (d.operations.filter (fun op => !op.completed)).isEmpty = true ↔
      ∀ op ∈ d.operations, op.completed = true := by
    rw [List.isEmpty_iff, List.filter_eq_nil_iff]
    simp
  unfold recoverRecord
  by_cases hI : (d.operations.filter (fun op => !op.completed)).isEmpty = true
  · rw [if_pos hI]
    constructor
    · intro h
      simp at h
    · rintro ⟨op, hop, hc⟩
      have hct := key.mp hI op hop
      rw [hct] at hc
      simp at hc
  · rw [if_neg hI]
    refine ⟨fun _ => ?_, fun _ => rfl⟩
    have hne := (not_congr key).mp hI
    push_neg at hne
    rcases hne with ⟨op, hop, hc⟩
    exact ⟨op, hop, by simpa using hc⟩

theorem recover_append (fs : FS) (xs ys : JournalDir) :
    recover_incomplete_transactions fs (xs ++ ys) =
      ((recover_incomplete_transactions
          (recover_incomplete_transactions fs xs).1 ys).1,
       (recover_incomplete_transactions fs xs).2.1 ++
         (recover_incomplete_transactions
           (recover_incomplete_transactions fs xs).1 ys).2.1,
       (recover_incomplete_transactions fs xs).2.2 ++
         (recover_incomplete_transactions
           (recover_incomplete_transactions fs xs).1 ys).2.2) := by
  induction xs generalizing fs with
  | nil => simp [recover_incomplete_transactions]
  | cons e rest ih =>
      rcases e with ⟨name, entry⟩
      cases entry with
      | bad => simp [recover_incomplete_transactions, ih]
      | parsed d =>
          by_cases hf : (recoverRecord fs d).2.2 <;>
            simp [recover_incomplete_transactions, ih, hf]

/-! ### Claim theorems -/

/-- **C3.** For every active transaction whose operations were registered in
the order `o1, …, on`, `rollback_transaction` attempts restoration of `on`
first and `o1` last: the trace of `_rollback_operation` calls it makes lists
exactly the registered operations in strictly reverse registration order. -/
theorem rollback_attempts_reverse_registration_order
    (tm : TransactionManager) (fs : FS) (jd : JournalDir) (tid : String)
    (h : tm.current_transaction_id = some tid) :
    ∃ r, rollback_transaction tm fs jd = Except.ok r ∧
      r.2.2.2.1.map Prod.fst = tm.operations.reverse ∧
      ∀ i : ℕ, i < tm.operations.length →
        (r.2.2.2.1.map Prod.fst)[i]? =
          tm.operations[tm.operations.length - 1 - i]? := by
  refine ⟨(TransactionManager.idle, (rollbackMany fs tm.operations.reverse).1,
    jdDelete jd (logFileName tid), (rollbackMany fs tm.operations.reverse).2.1,
    (rollbackMany fs tm.operations.reverse).2.2), ?_, ?_, ?_⟩
  · simp [rollback_transaction, h]
  · exact rollbackMany_trace_fst fs tm.operations.reverse
  · intro i hi
    rw [rollbackMany_trace_fst, List.getElem?_reverse hi]

/-- Witness for C3: the sample manager holds three operations; rollback
attempts them in reverse registration order. -/
theorem rollback_attempts_reverse_registration_order_witness :
    ∃ r, rollback_transaction sampleTM sampleFS [] = Except.ok r ∧
      r.2.2.2.1.map Prod.fst = sampleTM.operations.reverse ∧
      ∀ i : ℕ, i < sampleTM.operations.length →
        (r.2.2.2.1.map Prod.fst)[i]? =
          sampleTM.operations[sampleTM.operations.length - 1 - i]? :=
  rollback_attempts_reverse_registration_order sampleTM sampleFS [] "tx1" rfl

/-- **C4.** For every active transaction, `rollback_transaction` is
best-effort: an operation with no truthy `backup_path`, or whose backup file
is absent from the file system, yields a failed restoration without stopping
the remaining operations (the trace still covers every registered operation);
the journal file is deleted and the in-memory state cleared regardless of how
many restorations failed; and the returned flag is `true` iff every attempted
restoration succeeded. -/
theorem rollback_best_effort_cleanup_and_success
    (tm : TransactionManager) (fs : FS) (jd : JournalDir) (tid : String)
    (h : tm.current_transaction_id = some tid) :
    ∃ fs' tr ok,
      rollback_transaction tm fs jd =
        Except.ok (TransactionManager.idle, fs',
          jdDelete jd (logFileName tid), tr, ok) ∧
      jdRead (jdDelete jd (logFileName tid)) (logFileName tid) = none ∧
      tr.map Prod.fst = tm.operations.reverse ∧
      (ok = true ↔ ∀ p ∈ tr, p.2 = true) ∧
      ∀ (fs0 : FS) (op : TransactionOperation),
        (pyTruthy op.backup_path = false ∨
          ∀ bp, op.backup_path = some bp → fsExists fs0 bp = false) →
        rollback_operation fs0 op = (fs0, false) := by
  refine ⟨(rollbackMany fs tm.operations.reverse).1,
    (rollbackMany fs tm.operations.reverse).2.1,
    (rollbackMany fs tm.operations.reverse).2.2, ?_, ?_, ?_, ?_, ?_⟩
  · simp [rollback_transaction, h]
  · exact jdRead_jdDelete_self jd (logFileName tid)
  · exact rollbackMany_trace_fst fs tm.operations.reverse
  · exact rollbackMany_ok_iff fs tm.operations.reverse
  · exact rollback_operation_fails_without_backup

/-- Witness for C4, at a state with one missing-backup operation: rollback
still processes everything, cleans up, and reports `false`. -/
theorem rollback_best_effort_cleanup_and_success_witness :
    ∃ fs' tr ok,
      rollback_transaction sampleTM sampleFS
          [(logFileName "tx1", JEntry.bad)] =
        Except.ok (TransactionManager.idle, fs',
          jdDelete [(logFileName "tx1", JEntry.bad)] (logFileName "tx1"),
          tr, ok) ∧
      jdRead (jdDelete [(logFileName "tx1", JEntry.bad)] (logFileName "tx1"))
        (logFileName "tx1") = none ∧
      tr.map Prod.fst = sampleTM.operations.reverse ∧
      (ok = true ↔ ∀ p ∈ tr, p.2 = true) ∧
      ∀ (fs0 : FS) (op : TransactionOperation),
        (pyTruthy op.backup_path = false ∨
          ∀ bp, op.backup_path = some bp → fsExists fs0 bp = false) →
        rollback_operation fs0 op = (fs0, false) :=
  rollback_best_effort_cleanup_and_success sampleTM sampleFS
    [(logFileName "tx1", JEntry.bad)] "tx1" rfl

/-- **C2.** For every run of `recover_incomplete_transactions` over a journal
directory containing a journal file that parses to record `d`: the scan
decomposes around that file — its entry is deleted from the resulting
directory, its id is contributed exactly when its flag is set, and the scan
continues over the rest; and for every file system, the record is processed
by attempting restoration of exactly its `completed = false` operations, in
reverse order of their position in the record (the trace of
`_rollback_operation` calls equals that reversed sublist; completed
operations are never touched), with the id recorded iff at least one
operation has `completed = false`. -/
theorem recover_parsed_record_exact
    (fs : FS) (pre post : JournalDir) (name : String) (d : LogData) :
    recover_incomplete_transactions fs (pre ++ (name, JEntry.parsed d) :: post) =
      ((recover_incomplete_transactions
          (recoverRecord (recover_incomplete_transactions fs pre).1 d).1
          post).1,
       (recover_incomplete_transactions fs pre).2.1 ++
         (recover_incomplete_transactions
           (recoverRecord (recover_incomplete_transactions fs pre).1 d).1
           post).2.1,
       (recover_incomplete_transactions fs pre).2.2 ++
         (if (recoverRecord (recover_incomplete_transactions fs pre).1 d).2.2
          then [d.transaction_id] else []) ++
         (recover_incomplete_transactions
           (recoverRecord (recover_incomplete_transactions fs pre).1 d).1
           post).2.2) ∧
    ∀ fs0 : FS,
      ((recoverRecord fs0 d).2.1).map Prod.fst =
        (d.operations.filter (fun op => !op.completed)).reverse ∧
      (recoverRecord fs0 d).1 =
        (rollbackMany fs0
          ((d.operations.filter (fun op => !op.completed)).reverse)).1 ∧
      ((recoverRecord fs0 d).2.2 = true ↔
        ∃ op ∈ d.operations, op.completed = false) := by
  constructor
  · rw [recover_append]
    by_cases hf : (recoverRecord (recover_incomplete_transactions fs pre).1 d).2.2 <;>
      simp [recover_incomplete_transactions, hf]
  · intro fs0
    exact ⟨recoverRecord_trace fs0 d, recoverRecord_fs fs0 d,
      recoverRecord_flag_iff fs0 d⟩

/-- **C9.** A journal file whose contents fail to parse is left in the
directory unmodified by `recover_incomplete_transactions` (it reappears, in
place, in the surviving directory), contributes nothing to the recovered
ids, and does not stop the scan: the remaining files are processed exactly
as they would have been (the file system threads straight past the bad
file). -/
theorem recover_malformed_file_left_and_skipped
    (fs : FS) (pre post : JournalDir) (name : String) :
    recover_incomplete_transactions fs (pre ++ (name, JEntry.bad) :: post) =
      ((recover_incomplete_transactions
          (recover_incomplete_transactions fs pre).1 post).1,
       (recover_incomplete_transactions fs pre).2.1 ++ (name, JEntry.bad) ::
         (recover_incomplete_transactions
           (recover_incomplete_transactions fs pre).1 post).2.1,
       (recover_incomplete_transactions fs pre).2.2 ++
         (recover_incomplete_transactions
           (recover_incomplete_transactions fs pre).1 post).2.2) ∧
    (name, JEntry.bad) ∈
      (recover_incomplete_transactions fs
        (pre ++ (name, JEntry.bad) :: post)).2.1 := by
  have h1 : recover_incomplete_transactions fs
      (pre ++ (name, JEntry.bad) :: post) =
      ((recover_incomplete_transactions
          (recover_incomplete_transactions fs pre).1 post).1,
       (recover_incomplete_transactions fs pre).2.1 ++ (name, JEntry.bad) ::
         (recover_incomplete_transactions
           (recover_incomplete_transactions fs pre).1 post).2.1,
       (recover_incomplete_transactions fs pre).2.2 ++
         (recover_incomplete_transactions
           (recover_incomplete_transactions fs pre).1 post).2.2) := by
    rw [recover_append]
    simp [recover_incomplete_transactions]
  refine ⟨h1, ?_⟩
  rw [h1]
  simp

/-- **C10.** An operation whose `operation_type` is not one of
`"file_modify"`, `"file_delete"`, `"db_modify"` is never restored:
`_rollback_operation` leaves the file system — in particular the file at
`target_path` — unchanged and reports `false`, even when a valid backup
exists on disk. -/
theorem unknown_operation_type_never_restored
    (fs : FS) (op : TransactionOperation)
    (h1 : op.operation_type ≠ "file_modify")
    (h2 : op.operation_type ≠ "file_delete")
    (h3 : op.operation_type ≠ "db_modify") :
    rollback_operation fs op = (fs, false) ∧
    fsRead ((rollback_operation fs op).1) op.target_path =
      fsRead fs op.target_path := by
  have heq : rollback_operation fs op = (fs, false) := by
    unfold rollback_operation
    simp [h1, h2, h3]
  exact ⟨heq, by rw [heq]⟩

/-- Witness for C10: a `"file_rename"` operation whose backup file exists on
disk is still reported as a failed restoration with no file-system change. -/
theorem unknown_operation_type_never_restored_witness :
    fsExists sampleFS "a.bak" = true ∧
    (rollback_operation sampleFS sampleOpUnknown = (sampleFS, false) ∧
      fsRead ((rollback_operation sampleFS sampleOpUnknown).1)
          sampleOpUnknown.target_path =
        fsRead sampleFS sampleOpUnknown.target_path) :=
  ⟨by decide,
    unknown_operation_type_never_restored sampleFS sampleOpUnknown
      (by decide) (by decide) (by decide)⟩

/-- Counterexample to C1: a commit attempt on an active transaction whose
journal save fails returns `false` without raising, but the manager's
in-memory active state is NOT cleared — the transaction id is still set and
the operation list is still non-empty, because the clearing statements sit
after the raise point inside the `try` block. -/
theorem commit_cleanup_failure_state_kept_cex :
    commit_transaction "t1" CommitFault.saveFails sampleTM [] =
      Except.ok
        (⟨some "tx1", sampleTM.operations.map markCompleted⟩, [], false) ∧
    (⟨some "tx1", sampleTM.operations.map markCompleted⟩ :
      TransactionManager).current_transaction_id ≠ none ∧
    sampleTM.operations.map markCompleted ≠ [] :=
  ⟨rfl, by decide, by decide⟩

/-- **C1 (amended).** For every manager with an active transaction, if the
journal persistence or journal-file deletion step inside commit fails,
`commit_transaction` returns `false` without raising an exception, but the
manager's in-memory active state is NOT cleared: the transaction stays
active under the same id and the operation list is retained (its operations
already marked completed). -/
theorem commit_cleanup_failure_returns_false_state_kept
    (now : String) (fault : CommitFault) (tm : TransactionManager)
    (jd : JournalDir) (tid : String)
    (h : tm.current_transaction_id = some tid)
    (hf : fault ≠ CommitFault.ok) :
    ∃ jd', commit_transaction now fault tm jd =
      Except.ok (⟨some tid, tm.operations.map markCompleted⟩, jd', false) := by
  cases fault with
  | ok => exact absurd rfl hf
  | saveFails => exact ⟨jd, by simp [commit_transaction, h]⟩
  | deleteFails =>
      exact ⟨save_transaction_log now
        ⟨some tid, tm.operations.map markCompleted⟩ jd,
        by simp [commit_transaction, h]⟩

/-- Witness for C1 (amended): a failing deletion step on the sample manager
returns `false` with the active state intact. -/
theorem commit_cleanup_failure_returns_false_state_kept_witness :
    ∃ jd', commit_transaction "t1" CommitFault.deleteFails sampleTM [] =
      Except.ok
        (⟨some "tx1", sampleTM.operations.map markCompleted⟩, jd', false) :=
  commit_cleanup_failure_returns_false_state_kept "t1" CommitFault.deleteFails
    sampleTM [] "tx1" rfl (by decide)

/-- Counterexample to C6: a commit attempt whose journal-file deletion fails
returns `false`, yet the operation — registered with `completed = false` —
has had its flag set both in memory and in the journal record persisted by
the failed attempt. -/
theorem commit_failure_completed_flag_set_cex :
    sampleOpA.completed = false ∧
    commit_transaction "t1" CommitFault.deleteFails
        ⟨some "tx1", [sampleOpA]⟩ [] =
      Except.ok (⟨some "tx1", [markCompleted sampleOpA]⟩,
        [(logFileName "tx1",
          JEntry.parsed ⟨"tx1", "t1", [markCompleted sampleOpA]⟩)], false) ∧
    (markCompleted sampleOpA).completed = true :=
  ⟨rfl, rfl, rfl⟩

/-- **C6 (amended).** `commit_transaction` sets the `completed` flags of
exactly the committing transaction's operations at the start of the attempt,
before the fallible persistence and deletion steps.  The flags are therefore
set even when the commit then fails: after an attempt that returns `false`
every operation of the transaction is marked completed, and when only the
deletion step failed the persisted journal record shows them completed too.
The call returns `true` exactly on the fault-free run, and no journal file
other than the transaction's own is touched. -/
theorem commit_sets_completed_before_fallible_steps
    (now : String) (fault : CommitFault) (tm : TransactionManager)
    (jd : JournalDir) (tid : String)
    (h : tm.current_transaction_id = some tid) :
    ∃ tm' jd' b,
      commit_transaction now fault tm jd = Except.ok (tm', jd', b) ∧
      (b = false → tm'.operations = tm.operations.map markCompleted ∧
        ∀ op ∈ tm'.operations, op.completed = true) ∧
      (fault = CommitFault.deleteFails →
        jdRead jd' (logFileName tid) =
          some (JEntry.parsed ⟨tid, now, tm.operations.map markCompleted⟩)) ∧
      (∀ nm, nm ≠ logFileName tid → jdRead jd' nm = jdRead jd nm) ∧
      (b = true ↔ fault = CommitFault.ok) := by
  have hmarked : ∀ op ∈ tm.operations.map markCompleted, op.completed = true := by
    intro op hop
    rcases List.mem_map.mp hop with ⟨op0, _, rfl⟩
    rfl
  cases fault with
  | ok =>
      refine ⟨TransactionManager.idle,
        jdDelete (save_transaction_log now
          ⟨some tid, tm.operations.map markCompleted⟩ jd) (logFileName tid),
        true, by simp [commit_transaction, h], by simp, by simp, ?_, by simp⟩
      intro nm hnm
      rw [jdRead_jdDelete_ne _ _ _ hnm]
      unfold save_transaction_log
      simp only []
      rw [jdRead_jdWrite_ne _ _ _ _ hnm]
  | saveFails =>
      refine ⟨⟨some tid, tm.operations.map markCompleted⟩, jd, false,
        by simp [commit_transaction, h], fun _ => ⟨rfl, hmarked⟩,
        by simp, fun nm _ => rfl, by simp⟩
  | deleteFails =>
      refine ⟨⟨some tid, tm.operations.map markCompleted⟩,
        save_transaction_log now
          ⟨some tid, tm.operations.map markCompleted⟩ jd, false,
        by simp [commit_transaction, h], fun _ => ⟨rfl, hmarked⟩, ?_, ?_,
        by simp⟩
      · intro _
        unfold save_transaction_log
        simp only []
        exact jdRead_jdWrite_self jd (logFileName tid) _
      · intro nm hnm
        unfold save_transaction_log
        simp only []
        exact jdRead_jdWrite_ne jd (logFileName tid) nm _ hnm

/-- Witness for C6 (amended): instantiated at the sample manager with a
failing deletion step. -/
theorem commit_sets_completed_before_fallible_steps_witness :
    ∃ tm' jd' b,
      commit_transaction "t1" CommitFault.deleteFails sampleTM [] =
        Except.ok (tm', jd', b) ∧
      (b = false → tm'.operations = sampleTM.operations.map markCompleted ∧
        ∀ op ∈ tm'.operations, op.completed = true) ∧
      (CommitFault.deleteFails = CommitFault.deleteFails →
        jdRead jd' (logFileName "tx1") =
          some (JEntry.parsed
            ⟨"tx1", "t1", sampleTM.operations.map markCompleted⟩)) ∧
      (∀ nm, nm ≠ logFileName "tx1" →
        jdRead jd' nm = jdRead ([] : JournalDir) nm) ∧
      (b = true ↔ CommitFault.deleteFails = CommitFault.ok) :=
  commit_sets_completed_before_fallible_steps "t1" CommitFault.deleteFails
    sampleTM [] "tx1" rfl

/-- Counterexample to C5: during the direct in-place write performed by
`_save_transaction_log`, a reader of the journal directory can observe the
journal file holding `""` — a half-written record, neither absent nor the
serialized record — because the file is truncated at its final path before
the contents are written; no temporary path or rename is involved. -/
theorem journal_write_observable_half_written_cex :
    rawWrite [] (logFileName "tx_1") "" ∈
      save_write_states [] (logFileName "tx_1") "record-bytes" ∧
    rawRead (rawWrite [] (logFileName "tx_1") "")
      (logFileName "tx_1") = some "" ∧
    ("" : String) ≠ "record-bytes" := by
  refine ⟨by decide, rfl, by decide⟩

/-- **C5 (amended).** `_save_transaction_log` writes the record directly to
its final path: the observable directory states are the prior state, a state
in which the journal file has been truncated to empty contents — a
half-written record visible to a concurrent reader whenever the serialized
record is non-empty — and the final state with the full record.  No
temporary path plus atomic rename is used. -/
theorem journal_write_truncate_then_write (d : RawDir) (path ser : String)
    (h : ser ≠ "") :
    save_write_states d path ser =
      [d, rawWrite d path "", rawWrite d path ser] ∧
    rawRead (rawWrite d path "") path = some "" ∧
    (some "" : Option String) ≠ some ser ∧
    rawRead (rawWrite d path ser) path = some ser := by
  refine ⟨rfl, rawRead_rawWrite_self d path "", ?_,
    rawRead_rawWrite_self d path ser⟩
  simpa using Ne.symm h

/-- Witness for C5 (amended): a concrete non-empty serialized record. -/
theorem journal_write_truncate_then_write_witness :
    save_write_states [] (logFileName "tx_9") "rec" =
      [[], rawWrite [] (logFileName "tx_9") "",
        rawWrite [] (logFileName "tx_9") "rec"] ∧
    rawRead (rawWrite [] (logFileName "tx_9") "") (logFileName "tx_9") =
      some "" ∧
    (some "" : Option String) ≠ some "rec" ∧
    rawRead (rawWrite [] (logFileName "tx_9") "rec") (logFileName "tx_9") =
      some "rec" :=
  journal_write_truncate_then_write [] (logFileName "tx_9") "rec" (by decide)

/-- **C7 (failing evaluation).** The journal snapshot written by `begin` at
`utcnow = "t0"` carries `start_time = "t0"`, but the snapshot rewritten by
`add_operation` at `utcnow = "t1"` carries `start_time = "t1"`:
`_save_transaction_log` recomputes `datetime.utcnow()` on every save, so
rewriting the record after a structural change does NOT leave `start_time`
equal to the record's creation time. -/
theorem start_time_rewritten_on_each_save_cex :
    begin_transaction "t0" none "tx_1" TransactionManager.idle [] =
      Except.ok ("tx_1", ⟨some "tx_1", []⟩,
        [(logFileName "tx_1", JEntry.parsed ⟨"tx_1", "t0", []⟩)]) ∧
    add_operation "t1" sampleOpA ⟨some "tx_1", []⟩
        [(logFileName "tx_1", JEntry.parsed ⟨"tx_1", "t0", []⟩)] =
      Except.ok (⟨some "tx_1", [sampleOpA]⟩,
        [(logFileName "tx_1", JEntry.parsed ⟨"tx_1", "t1", [sampleOpA]⟩)]) ∧
    ("t1" : String) ≠ "t0" :=
  ⟨rfl, rfl, by decide⟩

/-- **C8.** The `with_transaction` wrapper, started on an idle manager with
work that leaves the transaction it was given active: if the work returns
normally, the wrapper commits (clearing the state on the fault-free run —
and even when the commit's journal cleanup fails, the commit's boolean
outcome is discarded) and returns the work's result; if the work raises
`e`, the wrapper rolls the transaction back and re-raises exactly `e`,
whatever the rollback's boolean outcome — the original failure is never
masked by the rollback attempt. -/
theorem with_transaction_commit_or_reraise {E α : Type}
    (now genId : String) (fault : CommitFault) (work : Work E α) (w : World)
    (hIdle : w.tm.current_transaction_id = none)
    (hPres : ∀ w1 : World,
      ((work w1).1).tm.current_transaction_id = w1.tm.current_transaction_id) :
    (∀ a : α,
      (work ⟨⟨some genId, []⟩, w.fs,
        save_transaction_log now ⟨some genId, []⟩ w.jd⟩).2 = Except.ok a →
      (with_transaction now genId fault work w).2 = Except.ok a ∧
      (fault = CommitFault.ok →
        ((with_transaction now genId fault work w).1).tm =
          TransactionManager.idle)) ∧
    (∀ e : E,
      (work ⟨⟨some genId, []⟩, w.fs,
        save_transaction_log now ⟨some genId, []⟩ w.jd⟩).2 = Except.error e →
      (with_transaction now genId fault work w).2 = Except.error (Sum.inr e) ∧
      ((with_transaction now genId fault work w).1).tm =
        TransactionManager.idle) := by
  have hbegin : begin_transaction now none genId w.tm w.jd =
      Except.ok (genId, ⟨some genId, []⟩,
        save_transaction_log now ⟨some genId, []⟩ w.jd) := by
    simp [begin_transaction, hIdle, pyTruthy]
  have hid : ((work ⟨⟨some genId, []⟩, w.fs,
      save_transaction_log now ⟨some genId, []⟩ w.jd⟩).1).tm.current_transaction_id =
      some genId :=
    hPres ⟨⟨some genId, []⟩, w.fs,
      save_transaction_log now ⟨some genId, []⟩ w.jd⟩
  constructor
  · intro a ha
    unfold with_transaction
    rw [hbegin]
    simp only [ha]
    cases fault <;>
      simp [commit_transaction, hid, TransactionManager.idle]
  · intro e he
    unfold with_transaction
    rw [hbegin]
    simp only [he]
    simp [rollback_transaction, hid, TransactionManager.idle]

/-- Witness for C8: the sample work returns `7` under the fault-free commit;
the wrapper propagates it (and the error half holds vacuously, `sampleWork`
never raising). -/
theorem with_transaction_commit_or_reraise_witness :
    (∀ a : Nat,
      (sampleWork ⟨⟨some "tx_1", []⟩, sampleWorld.fs,
        save_transaction_log "t0" ⟨some "tx_1", []⟩ sampleWorld.jd⟩).2 =
          Except.ok a →
      (with_transaction "t0" "tx_1" CommitFault.ok sampleWork
        sampleWorld).2 = Except.ok a ∧
      (CommitFault.ok = CommitFault.ok →
        ((with_transaction "t0" "tx_1" CommitFault.ok sampleWork
          sampleWorld).1).tm = TransactionManager.idle)) ∧
    (∀ e : Unit,
      (sampleWork ⟨⟨some "tx_1", []⟩, sampleWorld.fs,
        save_transaction_log "t0" ⟨some "tx_1", []⟩ sampleWorld.jd⟩).2 =
          Except.error e →
      (with_transaction "t0" "tx_1" CommitFault.ok sampleWork
        sampleWorld).2 = Except.error (Sum.inr e) ∧
      ((with_transaction "t0" "tx_1" CommitFault.ok sampleWork
        sampleWorld).1).tm = TransactionManager.idle) :=
  with_transaction_commit_or_reraise "t0" "tx_1" CommitFault.ok sampleWork
    sampleWorld rfl (fun _ => rfl)

end TxnModel
